import Mathlib

/-!
Verification development for the spacectl command-line client.

The Go source is shallowly embedded: each Lean definition mirrors one Go
function of the repository (file and function named in its doc comment).
External collaborators (the HTTP stack, the on-disk file, the JSON codec
of the standard library) are modelled as explicit parameters or as
structured values, as noted on each definition.
-/

namespace Spacectl

/-! ### Credential store (internal/config, file `config.go`)

The Go `Config` struct holds the persisted credentials plus the optional
default-tenant hints.  Go `int` fields are embedded as `Int`; the JSON
codec round-trips these exactly. -/

/-- Embeds the Go struct `config.Config` (fields with their json tags:
`api_url`, `access_token`, `refresh_token`, `user_email`, and the
omitempty-tagged `default_cloud`, `default_region`, `default_compute`,
`default_memory`). -/
structure Config where
  apiURL : String
  accessToken : String
  refreshToken : String
  userEmail : String
  defaultCloud : String
  defaultRegion : String
  defaultCompute : Int
  defaultMemory : Int
deriving DecidableEq, Repr

/-- Embeds Go `config.DefaultConfig`. -/
def DefaultConfig : Config :=
  { apiURL := "http://localhost:8080"
    accessToken := ""
    refreshToken := ""
    userEmail := ""
    defaultCloud := "eks"
    defaultRegion := "eu"
    defaultCompute := 2
    defaultMemory := 4 }

/-- Embeds Go `(*Config).IsAuthenticated`: both tokens non-empty. -/
def Config.IsAuthenticated (c : Config) : Bool :=
  c.accessToken ≠ "" && c.refreshToken ≠ ""

/-- Embeds Go `(*Config).ClearAuth`: wipes both tokens and the email. -/
def Config.ClearAuth (c : Config) : Config :=
  { c with accessToken := "", refreshToken := "", userEmail := "" }

/-- Embeds Go `(*Config).UpdateTokens`. -/
def Config.UpdateTokens (c : Config) (accessToken refreshToken userEmail : String) : Config :=
  { c with accessToken := accessToken, refreshToken := refreshToken, userEmail := userEmail }

/-- Field-level model of the JSON document `json.MarshalIndent` writes for a
`Config`: the four credential fields are always present; each
omitempty-tagged field is present (`some`) exactly when it is not its Go
zero value.  The byte layout (indentation, key order) carries no further
information for these field types, so the document is embedded as this
record of present fields. -/
structure ConfigJSON where
  api_url : String
  access_token : String
  refresh_token : String
  user_email : String
  default_cloud : Option String
  default_region : Option String
  default_compute : Option Int
  default_memory : Option Int
deriving DecidableEq, Repr

/-- Go `encoding/json` omitempty for a string field: omitted iff empty. -/
def omitemptyStr (s : String) : Option String :=
  if s = "" then none else some s

/-- Go `encoding/json` omitempty for an int field: omitted iff zero. -/
def omitemptyInt (n : Int) : Option Int :=
  if n = 0 then none else some n

/-- Serialization half of Go `(*Config).Save` (the `json.MarshalIndent` call
on the struct with the tags listed on `Config`). -/
def marshalConfig (c : Config) : ConfigJSON :=
  { api_url := c.apiURL
    access_token := c.accessToken
    refresh_token := c.refreshToken
    user_email := c.userEmail
    default_cloud := omitemptyStr c.defaultCloud
    default_region := omitemptyStr c.defaultRegion
    default_compute := omitemptyInt c.defaultCompute
    default_memory := omitemptyInt c.defaultMemory }

/-- Deserialization half of Go `config.Load` (the `json.Unmarshal` call):
a field missing from the document leaves the Go zero value. -/
def unmarshalConfig (j : ConfigJSON) : Config :=
  { apiURL := j.api_url
    accessToken := j.access_token
    refreshToken := j.refresh_token
    userEmail := j.user_email
    defaultCloud := j.default_cloud.getD ""
    defaultRegion := j.default_region.getD ""
    defaultCompute := j.default_compute.getD 0
    defaultMemory := j.default_memory.getD 0 }

/-- The on-disk file `~/.spacectl`: `none` when the file does not exist,
`some j` when it holds the serialized document `j`. -/
abbrev Store : Type := Option ConfigJSON

/-- Embeds Go `(*Config).Save`: overwrites the file with the marshalled
config.  (The Go code also creates the directory and sets mode 0600;
those effects do not touch the stored bytes.) -/
def Config.Save (c : Config) (_ : Store) : Store :=
  some (marshalConfig c)

/-- Embeds Go `config.Load`: a missing file yields `DefaultConfig`,
otherwise the stored document is unmarshalled. -/
def Load (s : Store) : Config :=
  match s with
  | none => DefaultConfig
  | some j => unmarshalConfig j

/-! ### Authenticated transport (internal/api, file `client.go`)

The HTTP stack is an external collaborator: it is embedded as a `NetEnv`
of response functions.  `doRequest` additionally returns the list of
requests it handed to `httpClient.Do`, so that retry behaviour is part of
the embedded result. -/

/-- One request handed to Go `httpClient.Do`: method, full URL, the
`Authorization` header (absent when never set), and the serialized body. -/
structure SentReq where
  method : String
  url : String
  auth : Option String
  body : Option String
deriving DecidableEq, Repr

/-- The part of an HTTP response `doRequest` inspects: its status code.
(The body is consumed later by `handleResponse`, outside these claims.) -/
structure HttpResponse where
  status : Nat
deriving DecidableEq, Repr

/-- Embeds the `email` field of Go `models.User` used by the refresh path. -/
structure UserInfo where
  email : String
deriving DecidableEq, Repr

/-- Embeds Go `models.LoginResponse` (fields `access_token`,
`refresh_token`, `user`). -/
structure LoginResponse where
  accessToken : String
  refreshToken : String
  user : UserInfo
deriving DecidableEq, Repr

/-- What the refresh endpoint answers: its status code, and the decoded
`LoginResponse` when the body decodes (`none` embeds a decode failure). -/
structure RefreshAnswer where
  status : Nat
  payload : Option LoginResponse
deriving DecidableEq, Repr

/-- The network as seen by the client.  `serve` answers a request handed to
`httpClient.Do` (`none` embeds a transport-level failure before any
response); `refresh` answers the POST of a given refresh token to
`/api/v1/user/refresh`. -/
structure NetEnv where
  serve : SentReq → Option HttpResponse
  refresh : String → Option RefreshAnswer

/-- The mutable state Go `api.Client` reaches through: its base URL, the
shared `*config.Config`, and the on-disk store `Save` writes to. -/
structure ClientState where
  baseURL : String
  config : Config
  store : Store

/-- The single-quote character, spelled by code point for use in the
error-message literals of `client.go`. -/
def sq : String :=
  (Char.ofNat 39).toString

/-- Embeds Go `(*Client).refreshToken` (client.go): POST the stored refresh
token to the refresh endpoint; on non-200 clear credentials and persist
(the Go code discards the error of this `Save` call), returning the
session-expired error; on 200 decode, update tokens and persist. -/
def refreshToken (env : NetEnv) (s : ClientState) : ClientState × Except String Unit :=
  match env.refresh s.config.refreshToken with
  | none => (s, Except.error "refresh request failed")
  | some ans =>
    if ans.status ≠ 200 then
      let c := s.config.ClearAuth
      ({ s with config := c, store := c.Save s.store },
       Except.error ("session expired (HTTP " ++ toString ans.status ++
         "). Please run " ++ sq ++ "spacectl login" ++ sq ++ " to re-authenticate"))
    else
      match ans.payload with
      | none => (s, Except.error "failed to decode refresh response")
      | some lr =>
        let c := s.config.UpdateTokens lr.accessToken lr.refreshToken lr.user.email
        ({ s with config := c, store := c.Save s.store }, Except.ok ())

/-- The request Go `doRequest` first builds: URL `baseURL+path`, the bearer
header only when an access token is present. -/
def initialReq (s : ClientState) (method path : String) (body : Option String) : SentReq :=
  { method := method
    url := s.baseURL ++ path
    auth := if s.config.accessToken ≠ "" then some ("Bearer " ++ s.config.accessToken) else none
    body := body }

/-- Embeds Go `(*Client).doRequest` (client.go): send the request; if the
response is 401 and a refresh token is stored, discard it, run one refresh
cycle, and on success re-send the same request with the new bearer header
(set unconditionally, as `req.Header.Set` is).  Returns the final client
state, the list of requests handed to `httpClient.Do` in order, and either
the response returned to the caller or the wrapped error. -/
def doRequest (env : NetEnv) (s : ClientState) (method path : String) (body : Option String) :
    ClientState × List SentReq × Except String HttpResponse :=
  let req := initialReq s method path body
  match env.serve req with
  | none => (s, [req], Except.error "request failed")
  | some resp =>
    if resp.status = 401 ∧ s.config.refreshToken ≠ "" then
      match refreshToken env s with
      | (s1, Except.error e) => (s1, [req], Except.error ("authentication failed: " ++ e))
      | (s1, Except.ok ()) =>
        let retry := { req with auth := some ("Bearer " ++ s1.config.accessToken) }
        match env.serve retry with
        | none => (s1, [req, retry], Except.error "retry request failed")
        | some resp2 => (s1, [req, retry], Except.ok resp2)
    else
      (s, [req], Except.ok resp)

/-! ### Debug-log redaction (internal/api, file `client.go`)

Go unmarshals the payload into a dynamic value of nested maps, slices and
primitives, redacts it, and re-marshals it.  The dynamic tree is embedded
as the mutual inductive below.  `json.Unmarshal` converts a numeric
literal to a float64, so a number node carries the bit pattern of that
float64 (as a `Nat`); the two `strconv` conversions between numeric
literals and float64 values — the one genuinely floating-point piece of
the codec — are kept as an explicit `FloatCodec` record.  A Go map has no
key order of its own and `json.Marshal` emits map keys in ascending byte
order, so the embedded decoder keeps every object node it builds sorted
by key (a duplicate key overwrites, as assignment into the map does) and
the embedded encoder emits fields in stored order. -/

mutual
/-- Dynamic JSON value as produced by Go `json.Unmarshal` into
`interface{}`. -/
inductive Json where
  | null : Json
  | bool (b : Bool) : Json
  | num (bits : Nat) : Json
  | str (s : String) : Json
  | arr (elems : JsonArr) : Json
  | obj (fields : JsonObj) : Json
/-- A JSON array (`[]interface{}`), elements in order. -/
inductive JsonArr where
  | nil : JsonArr
  | cons (hd : Json) (tl : JsonArr) : JsonArr
/-- A JSON object (`map[string]interface{}`), one key/value entry per
node, in ascending key order. -/
inductive JsonObj where
  | nil : JsonObj
  | cons (key : String) (val : Json) (tl : JsonObj) : JsonObj
end

/-- Embeds Go `strings.ToLower` on the ASCII strings handled in this
development (character-wise lower-casing; `Char.toLower` lowers exactly
the ASCII uppercase range). -/
def goToLower (s : String) : String :=
  String.mk (s.data.map Char.toLower)

/-- Embeds Go `isSensitiveKey` (client.go): the lower-cased key is one of
the seven sensitive names. -/
def isSensitiveKey (key : String) : Bool :=
  match goToLower key with
  | "password" | "pass" | "pwd" | "access_token" | "refresh_token" | "token" | "authorization" => true
  | _ => false

mutual
/-- Embeds Go `redactRecursive` (client.go) on a value. -/
def redactRecursive : Json → Json
  | Json.obj fields => Json.obj (redactObj fields)
  | Json.arr elems => Json.arr (redactArr elems)
  | v => v
/-- Embeds the `[]interface{}` branch of Go `redactRecursive`. -/
def redactArr : JsonArr → JsonArr
  | JsonArr.nil => JsonArr.nil
  | JsonArr.cons hd tl => JsonArr.cons (redactRecursive hd) (redactArr tl)
/-- Embeds the `map[string]interface{}` branch of Go `redactRecursive`:
a sensitive key gets the fixed marker, any other value is recursed into. -/
def redactObj : JsonObj → JsonObj
  | JsonObj.nil => JsonObj.nil
  | JsonObj.cons k v tl =>
    JsonObj.cons k (if isSensitiveKey k then Json.str "***REDACTED***" else redactRecursive v)
      (redactObj tl)
end

/-- The `strconv` half of the number pipeline: `ofLit` models
`strconv.ParseFloat` from a JSON numeric literal to the bit pattern of
the resulting float64 (`none` where Go would reject the literal), and
`toLit` models the shortest-representation formatting `json.Marshal`
applies to that float64.  Floating-point arithmetic itself is not
embedded; nothing below inspects the bit pattern. -/
structure FloatCodec where
  ofLit : String → Option Nat
  toLit : Nat → String

/-- A codec for documents without numbers: every numeric literal is
rejected. -/
def floatCodec0 : FloatCodec :=
  { ofLit := fun _ => none, toLit := fun _ => "" }

/-- Code-point lexicographic strict order on character lists; on UTF-8
this coincides with the byte order Go compares strings by. -/
def charListLt : List Char → List Char → Bool
  | [], [] => false
  | [], _ :: _ => true
  | _ :: _, [] => false
  | a :: as, b :: bs => if a < b then true else if b < a then false else charListLt as bs

/-- Go string `<` (byte order). -/
def strLt (a b : String) : Bool :=
  charListLt a.data b.data

/-- Assignment `m[k] = v` on the sorted-field representation of a Go map:
replaces an existing binding, otherwise inserts keeping keys ascending. -/
def objUpsert (k : String) (v : Json) : JsonObj → JsonObj
  | JsonObj.nil => JsonObj.cons k v JsonObj.nil
  | JsonObj.cons k2 v2 tl =>
    if k = k2 then JsonObj.cons k v tl
    else if strLt k k2 then JsonObj.cons k v (JsonObj.cons k2 v2 tl)
    else JsonObj.cons k2 v2 (objUpsert k v tl)

/-- JSON whitespace accepted between tokens by the decoder. -/
def skipWs : List Char → List Char
  | c :: rest =>
    if c = ' ' ∨ c = '\t' ∨ c = '\n' ∨ c = '\r' then skipWs rest else c :: rest
  | [] => []

/-- Value of one hex digit. -/
def hexVal (c : Char) : Option Nat :=
  if '0' ≤ c ∧ c ≤ '9' then some (c.toNat - '0'.toNat)
  else if 'a' ≤ c ∧ c ≤ 'f' then some (c.toNat - 'a'.toNat + 10)
  else if 'A' ≤ c ∧ c ≤ 'F' then some (c.toNat - 'A'.toNat + 10)
  else none

/-- The four hex digits of a `\u` escape. -/
def parseHex4 : List Char → Option (Nat × List Char)
  | a :: b :: c :: d :: rest =>
    match hexVal a, hexVal b, hexVal c, hexVal d with
    | some x, some y, some z, some w => some (((x * 16 + y) * 16 + z) * 16 + w, rest)
    | _, _, _, _ => none
  | _ => none

/-- Decodes the body of a JSON string literal after the opening quote as
Go does: plain characters above 0x1F, the short escapes, and `\uXXXX`
with surrogate pairs combined (an unpaired surrogate becomes U+FFFD).
`fuel` bounds the recursion by the input length. -/
def parseStrBody (fuel : Nat) (acc : List Char) (cs : List Char) : Option (String × List Char) :=
  match fuel with
  | 0 => none
  | fuel + 1 =>
    match cs with
    | [] => none
    | '"' :: rest => some (String.mk acc.reverse, rest)
    | '\\' :: e :: rest =>
      match e with
      | '"' => parseStrBody fuel ('"' :: acc) rest
      | '\\' => parseStrBody fuel ('\\' :: acc) rest
      | '/' => parseStrBody fuel ('/' :: acc) rest
      | 'b' => parseStrBody fuel ('\x08' :: acc) rest
      | 'f' => parseStrBody fuel ('\x0c' :: acc) rest
      | 'n' => parseStrBody fuel ('\n' :: acc) rest
      | 'r' => parseStrBody fuel ('\r' :: acc) rest
      | 't' => parseStrBody fuel ('\t' :: acc) rest
      | 'u' =>
        match parseHex4 rest with
        | none => none
        | some (n, rest2) =>
          if 0xD800 ≤ n ∧ n < 0xDC00 then
            match rest2 with
            | '\\' :: 'u' :: rest3 =>
              match parseHex4 rest3 with
              | some (m, rest4) =>
                if 0xDC00 ≤ m ∧ m < 0xE000 then
                  parseStrBody fuel
                    (Char.ofNat (0x10000 + (n - 0xD800) * 0x400 + (m - 0xDC00)) :: acc) rest4
                else parseStrBody fuel (Char.ofNat 0xFFFD :: acc) rest2
              | none => parseStrBody fuel (Char.ofNat 0xFFFD :: acc) rest2
            | _ => parseStrBody fuel (Char.ofNat 0xFFFD :: acc) rest2
          else if 0xDC00 ≤ n ∧ n < 0xE000 then
            parseStrBody fuel (Char.ofNat 0xFFFD :: acc) rest2
          else
            parseStrBody fuel (Char.ofNat n :: acc) rest2
      | _ => none
    | c :: rest => if c.toNat < 0x20 then none else parseStrBody fuel (c :: acc) rest

/-- A maximal run of decimal digits. -/
def takeDigits : List Char → List Char × List Char
  | c :: rest =>
    if '0' ≤ c ∧ c ≤ '9' then
      let p := takeDigits rest
      (c :: p.1, p.2)
    else ([], c :: rest)
  | [] => ([], [])

/-- Integer part of a JSON number: `0`, or a nonzero digit then digits. -/
def scanInt : List Char → Option (List Char × List Char)
  | '0' :: rest => some (['0'], rest)
  | c :: rest =>
    if '1' ≤ c ∧ c ≤ '9' then
      let p := takeDigits rest
      some (c :: p.1, p.2)
    else none
  | [] => none

/-- Optional fraction part `.digits`. -/
def scanFrac : List Char → Option (List Char × List Char)
  | '.' :: rest =>
    let p := takeDigits rest
    if p.1.isEmpty then none else some ('.' :: p.1, p.2)
  | cs => some ([], cs)

/-- Optional exponent part `[eE][+-]?digits`. -/
def scanExp : List Char → Option (List Char × List Char)
  | c :: rest =>
    if c = 'e' ∨ c = 'E' then
      let q : List Char × List Char :=
        match rest with
        | s :: rest2 => if s = '+' ∨ s = '-' then ([s], rest2) else ([], s :: rest2)
        | [] => ([], [])
      let p := takeDigits q.2
      if p.1.isEmpty then none else some (c :: (q.1 ++ p.1), p.2)
    else some ([], c :: rest)
  | [] => some ([], [])

/-- Scans one JSON numeric literal per the grammar the Go scanner
enforces. -/
def scanNumber (cs : List Char) : Option (List Char × List Char) :=
  let q : List Char × List Char :=
    match cs with
    | '-' :: rest => (['-'], rest)
    | _ => ([], cs)
  match scanInt q.2 with
  | none => none
  | some (ip, cs2) =>
    match scanFrac cs2 with
    | none => none
    | some (fp, cs3) =>
      match scanExp cs3 with
      | none => none
      | some (ep, cs4) => some (q.1 ++ ip ++ fp ++ ep, cs4)

mutual
/-- One JSON value, as the Go decoder accepts it into `interface{}`
(`fuel` bounds the nesting; every recursive call spends one unit). -/
def parseValue (codec : FloatCodec) : Nat → List Char → Option (Json × List Char)
  | 0, _ => none
  | fuel + 1, cs =>
    match skipWs cs with
    | 'n' :: 'u' :: 'l' :: 'l' :: rest => some (Json.null, rest)
    | 't' :: 'r' :: 'u' :: 'e' :: rest => some (Json.bool true, rest)
    | 'f' :: 'a' :: 'l' :: 's' :: 'e' :: rest => some (Json.bool false, rest)
    | '"' :: rest =>
      match parseStrBody (rest.length + 1) [] rest with
      | some (str, rest2) => some (Json.str str, rest2)
      | none => none
    | '[' :: rest =>
      match skipWs rest with
      | ']' :: rest2 => some (Json.arr JsonArr.nil, rest2)
      | inner =>
        match parseArrItems codec fuel inner with
        | some (elems, rest2) => some (Json.arr elems, rest2)
        | none => none
    | '\x7b' :: rest =>
      match skipWs rest with
      | '\x7d' :: rest2 => some (Json.obj JsonObj.nil, rest2)
      | inner =>
        match parseObjItems codec fuel JsonObj.nil inner with
        | some (fields, rest2) => some (Json.obj fields, rest2)
        | none => none
    | other =>
      match scanNumber other with
      | some (lit, rest) =>
        match codec.ofLit (String.mk lit) with
        | some bits => some (Json.num bits, rest)
        | none => none
      | none => none
/-- Comma-separated array elements up to the closing bracket. -/
def parseArrItems (codec : FloatCodec) : Nat → List Char → Option (JsonArr × List Char)
  | 0, _ => none
  | fuel + 1, cs =>
    match parseValue codec fuel cs with
    | none => none
    | some (v, rest) =>
      match skipWs rest with
      | ',' :: rest2 =>
        match parseArrItems codec fuel rest2 with
        | some (tl, rest3) => some (JsonArr.cons v tl, rest3)
        | none => none
      | ']' :: rest2 => some (JsonArr.cons v JsonArr.nil, rest2)
      | _ => none
/-- Comma-separated `"key": value` fields up to the closing brace, each
assigned into the map via `objUpsert` (a later duplicate overwrites). -/
def parseObjItems (codec : FloatCodec) : Nat → JsonObj → List Char → Option (JsonObj × List Char)
  | 0, _, _ => none
  | fuel + 1, acc, cs =>
    match skipWs cs with
    | '"' :: rest =>
      match parseStrBody (rest.length + 1) [] rest with
      | none => none
      | some (k, rest2) =>
        match skipWs rest2 with
        | ':' :: rest3 =>
          match parseValue codec fuel rest3 with
          | none => none
          | some (v, rest4) =>
            match skipWs rest4 with
            | ',' :: rest5 => parseObjItems codec fuel (objUpsert k v acc) rest5
            | '\x7d' :: rest5 => some (objUpsert k v acc, rest5)
            | _ => none
        | _ => none
    | _ => none
end

/-- Embeds `json.Unmarshal` into `interface{}`: one value, then only
trailing whitespace. -/
def goParse (codec : FloatCodec) (raw : String) : Option Json :=
  match parseValue codec (raw.data.length + 1) raw.data with
  | some (v, rest) =>
    match skipWs rest with
    | [] => some v
    | _ => none
  | none => none

/-- Lower-case hex digit, as the Go encoder writes escapes. -/
def hexChar (n : Nat) : Char :=
  if n < 10 then Char.ofNat ('0'.toNat + n) else Char.ofNat ('a'.toNat + n - 10)

/-- One character of a string as `json.Marshal` emits it with its default
HTML escaping on: quote and backslash escaped, `\n` `\r` `\t` short
escapes, every other control character as `\u00XX`, the HTML-sensitive
characters as `\u0026` `\u003c` `\u003e`, and U+2028/U+2029 escaped. -/
def escapeChar (c : Char) : List Char :=
  if c = '"' then ['\\', '"']
  else if c = '\\' then ['\\', '\\']
  else if c = '\n' then ['\\', 'n']
  else if c = '\r' then ['\\', 'r']
  else if c = '\t' then ['\\', 't']
  else if c.toNat < 0x20 then
    ['\\', 'u', '0', '0', hexChar (c.toNat / 16), hexChar (c.toNat % 16)]
  else if c = '&' then ['\\', 'u', '0', '0', '2', '6']
  else if c = '<' then ['\\', 'u', '0', '0', '3', 'c']
  else if c = '>' then ['\\', 'u', '0', '0', '3', 'e']
  else if c.toNat = 0x2028 then ['\\', 'u', '2', '0', '2', '8']
  else if c.toNat = 0x2029 then ['\\', 'u', '2', '0', '2', '9']
  else [c]

/-- A string literal as `json.Marshal` writes it. -/
def quoteString (s : String) : String :=
  "\"" ++ String.mk ((s.data.map escapeChar).flatten) ++ "\""

mutual
/-- Embeds `json.Marshal` on the dynamic tree: compact form, object
fields in stored (ascending) key order, numbers through the codec. -/
def serializeJson (codec : FloatCodec) : Json → String
  | Json.null => "null"
  | Json.bool true => "true"
  | Json.bool false => "false"
  | Json.num bits => codec.toLit bits
  | Json.str s => quoteString s
  | Json.arr elems => "[" ++ serializeArr codec elems ++ "]"
  | Json.obj fields => "\x7b" ++ serializeObj codec fields ++ "\x7d"
/-- Comma-separated serialized array elements. -/
def serializeArr (codec : FloatCodec) : JsonArr → String
  | JsonArr.nil => ""
  | JsonArr.cons hd JsonArr.nil => serializeJson codec hd
  | JsonArr.cons hd tl => serializeJson codec hd ++ "," ++ serializeArr codec tl
/-- Comma-separated serialized `"key":value` fields. -/
def serializeObj (codec : FloatCodec) : JsonObj → String
  | JsonObj.nil => ""
  | JsonObj.cons k v JsonObj.nil => quoteString k ++ ":" ++ serializeJson codec v
  | JsonObj.cons k v tl =>
    quoteString k ++ ":" ++ serializeJson codec v ++ "," ++ serializeObj codec tl
end

/-- Embeds Go `redactSensitiveJSON` (client.go): `json.Unmarshal` the
payload — invalid JSON is returned unchanged — then redact the tree and
`json.Marshal` it.  (The marshal-error fallback of the Go code is
unreachable for this value type.) -/
def redactSensitiveJSON (codec : FloatCodec) (raw : String) : String :=
  match goParse codec raw with
  | none => raw
  | some v => serializeJson codec (redactRecursive v)

mutual
/-- Stated from the spec sentence on redaction: output value of a correct
redaction of the input value — leaves are byte-identical, arrays keep
order and length, objects keep keys and order, and a sensitive key
(case-insensitive) carries exactly the marker `"***REDACTED***"`. -/
inductive RedactSpec : Json → Json → Prop where
  | null : RedactSpec Json.null Json.null
  | bool (b : Bool) : RedactSpec (Json.bool b) (Json.bool b)
  | num (bits : Nat) : RedactSpec (Json.num bits) (Json.num bits)
  | str (s : String) : RedactSpec (Json.str s) (Json.str s)
  | arr {xs ys : JsonArr} : RedactArrSpec xs ys → RedactSpec (Json.arr xs) (Json.arr ys)
  | obj {fs gs : JsonObj} : RedactObjSpec fs gs → RedactSpec (Json.obj fs) (Json.obj gs)
/-- Array part of `RedactSpec`: pointwise, order preserved. -/
inductive RedactArrSpec : JsonArr → JsonArr → Prop where
  | nil : RedactArrSpec JsonArr.nil JsonArr.nil
  | cons {x y : Json} {xs ys : JsonArr} : RedactSpec x y → RedactArrSpec xs ys →
      RedactArrSpec (JsonArr.cons x xs) (JsonArr.cons y ys)
/-- Object part of `RedactSpec`: same keys in the same order; a sensitive
key maps to the marker, any other entry is redacted recursively. -/
inductive RedactObjSpec : JsonObj → JsonObj → Prop where
  | nil : RedactObjSpec JsonObj.nil JsonObj.nil
  | consSensitive {k : String} {v : Json} {fs gs : JsonObj} : isSensitiveKey k = true →
      RedactObjSpec fs gs →
      RedactObjSpec (JsonObj.cons k v fs) (JsonObj.cons k (Json.str "***REDACTED***") gs)
  | consPlain {k : String} {v w : Json} {fs gs : JsonObj} : isSensitiveKey k = false →
      RedactSpec v w → RedactObjSpec fs gs →
      RedactObjSpec (JsonObj.cons k v fs) (JsonObj.cons k w gs)
end

mutual
/-- The code meets the redaction spec on every value. -/
theorem redactRecursive_meets_spec : ∀ v : Json, RedactSpec v (redactRecursive v)
  | Json.null => RedactSpec.null
  | Json.bool b => RedactSpec.bool b
  | Json.num bits => RedactSpec.num bits
  | Json.str s => RedactSpec.str s
  | Json.arr elems => RedactSpec.arr (redactArr_meets_spec elems)
  | Json.obj fields => RedactSpec.obj (redactObj_meets_spec fields)
/-- The code meets the redaction spec on every array. -/
theorem redactArr_meets_spec : ∀ xs : JsonArr, RedactArrSpec xs (redactArr xs)
  | JsonArr.nil => RedactArrSpec.nil
  | JsonArr.cons hd tl =>
    RedactArrSpec.cons (redactRecursive_meets_spec hd) (redactArr_meets_spec tl)
/-- The code meets the redaction spec on every object. -/
theorem redactObj_meets_spec : ∀ fs : JsonObj, RedactObjSpec fs (redactObj fs)
  | JsonObj.nil => RedactObjSpec.nil
  | JsonObj.cons k v tl => by
    by_cases h : isSensitiveKey k = true
    · simpa [redactObj, h] using RedactObjSpec.consSensitive h (redactObj_meets_spec tl)
    · have h0 : isSensitiveKey k = false := by simpa using h
      simpa [redactObj, h0] using
        RedactObjSpec.consPlain h0 (redactRecursive_meets_spec v) (redactObj_meets_spec tl)
end

/-! ### Output formatter (internal/output, file `formatter.go`)

Table and CSV rendering work on records of type `map[string]interface{}`.
A Go map carries no iteration order: a record is embedded as an
association list with the list order standing for the arbitrary order an
actual `range` over the map would produce (two permutations of the same
entries denote the same Go map).  The claims here enter the formatter
through `convertToRecords` on a slice of `map[string]interface{}` values,
which returns those maps unchanged (its `case map[string]interface{}`
branch), so the embedded entry points take the record list directly. -/

/-- Dynamic value stored in a record (`interface{}`): the scalar kinds the
formatter prints, with `nil` for the zero interface value a missing map
key reads as. -/
inductive GoValue where
  | str (s : String)
  | int (n : Int)
  | bool (b : Bool)
  | nil
deriving DecidableEq, Repr

/-- Embeds `fmt.Sprintf` with verb `%v` on the embedded scalar kinds. -/
def GoValue.sprintf : GoValue → String
  | GoValue.str s => s
  | GoValue.int n => toString n
  | GoValue.bool b => if b then "true" else "false"
  | GoValue.nil => "<nil>"

/-- A record: one `map[string]interface{}` of the formatter, as an
association list (see the section comment on iteration order). -/
abbrev Rec : Type := List (String × GoValue)

/-- Go map key-presence test `_, ok := m[k]`. -/
def recHasKey (r : Rec) (k : String) : Bool :=
  r.any fun p => p.1 == k

/-- Go map read `m[k]`: the stored value, or the zero `interface{}` (nil)
when the key is absent. -/
def recGet (r : Rec) (k : String) : GoValue :=
  match r.find? (fun p => p.1 == k) with
  | some p => p.2
  | none => GoValue.nil

/-- The keys of a record (each Go map key once, in representation order). -/
def recKeys (r : Rec) : List String :=
  r.map Prod.fst

/-- Embeds Go `hasKeys` (formatter.go): every listed key is present. -/
def hasKeys (r : Rec) (keys : List String) : Bool :=
  keys.all (recHasKey r)

/-- Embeds Go `getOrderedHeadersFromRecord` (formatter.go): the four
curated shapes in source order, then the alphabetical fallback
(`sort.Strings`; the sort result does not depend on the arbitrary map
iteration order that feeds it, keys being distinct). -/
def getOrderedHeadersFromRecord (r : Rec) : List String :=
  if hasKeys r ["organization", "role", "is_default"] then
    ["organization", "role", "is_default"]
  else if hasKeys r ["cloud_provider", "region", "zone"] then
    ["cloud_provider", "region", "zone"]
  else if hasKeys r ["version", "is_default"] then
    ["version", "is_default"]
  else if hasKeys r ["name", "cloud_provider", "region", "kubernetes_version",
      "compute_quota", "memory_quota_gb", "status"] then
    ["name", "cloud_provider", "region", "kubernetes_version",
     "compute_quota", "memory_quota_gb", "status"]
  else
    (recKeys r).insertionSort (· ≤ ·)

/-- Embeds Go `strings.Title` word-boundary test `isSeparator` for the
ASCII range (ASCII alphanumerics and underscore are not separators,
every other ASCII character is); the record keys rendered here are
ASCII, so non-ASCII code points are embedded as non-separators. -/
def goIsSeparator (c : Char) : Bool :=
  if c.toNat ≤ 0x7F then
    !(('0' ≤ c && c ≤ '9') || ('a' ≤ c && c ≤ 'z') || ('A' ≤ c && c ≤ 'Z') || c == '_')
  else
    false

/-- Character list worker for `goTitle`, threading the previous rune
(initially a space) as `strings.Title` does. -/
def goTitleAux : Char → List Char → List Char
  | _, [] => []
  | prev, c :: rest => (if goIsSeparator prev then c.toUpper else c) :: goTitleAux c rest

/-- Embeds Go `strings.Title` (used on table headers): a rune is
title-cased exactly when the previous rune is a separator. -/
def goTitle (s : String) : String :=
  String.mk (goTitleAux ' ' s.data)

/-- Embeds the quoting rule of Go `encoding/csv`: a field is quoted when
it contains a comma, quote or line break, begins with a space or tab, or
is the literal backslash-dot. -/
def csvNeedsQuotes (s : String) : Bool :=
  s == "\\." || s.data.contains ',' || s.data.contains '"' || s.data.contains '\r' ||
    s.data.contains '\n' ||
    (match s.data with
     | [] => false
     | c :: _ => c == ' ' || c == '\t')

/-- Character-wise doubling of inner quotes, as Go `encoding/csv` writes a
quoted field. -/
def csvEscapeQuotes : List Char → List Char
  | [] => []
  | c :: rest =>
    if c = '"' then '"' :: '"' :: csvEscapeQuotes rest else c :: csvEscapeQuotes rest

/-- One field as Go `encoding/csv` writes it (inner quotes doubled). -/
def csvQuote (s : String) : String :=
  if csvNeedsQuotes s then "\"" ++ String.mk (csvEscapeQuotes s.data) ++ "\"" else s

/-- One row as Go `(*csv.Writer).Write` emits it (default `\n` ending). -/
def csvWriteRow (row : List String) : String :=
  String.intercalate "," (row.map csvQuote) ++ "\n"

/-- Embeds Go `(*Formatter).formatCSV` (formatter.go) after
`convertToRecords`: nothing at all for an empty record list; otherwise,
with headers, the header row from the first record and one row per record
read through those headers; with headers suppressed, one row per record
whose cells come from `for _, value := range record`, i.e. in the
arbitrary map iteration order (the representation order here). -/
def formatCSV (noHeaders : Bool) (records : List Rec) : Except String String :=
  match records with
  | [] => Except.ok ""
  | r0 :: _ =>
    if noHeaders then
      Except.ok (String.join (records.map fun r =>
        csvWriteRow (r.map fun p => GoValue.sprintf p.2)))
    else
      let headers := getOrderedHeadersFromRecord r0
      Except.ok (csvWriteRow headers ++ String.join (records.map fun r =>
        csvWriteRow (headers.map fun h => GoValue.sprintf (recGet r h))))

/-- What Go `(*Formatter).formatTable` hands to `tablewriter` (whose
column-padding byte layout is external): either the literal empty-result
line written directly to the sink, or the header cells and row cells in
order. -/
structure TableOut where
  emptyMessage : Option String
  headers : List String
  rows : List (List String)
deriving DecidableEq, Repr

/-- Embeds Go `(*Formatter).formatTable` (formatter.go) after
`convertToRecords`: an empty record list prints exactly the line
`No data found` (with the newline `fmt.Fprintln` adds) and succeeds;
otherwise headers are the title-cased ordered headers of the first
record, and each row reads `record[strings.ToLower(header)]`. -/
def formatTable (records : List Rec) : Except String TableOut :=
  match records with
  | [] => Except.ok { emptyMessage := some "No data found\n", headers := [], rows := [] }
  | r0 :: _ =>
    let headers := (getOrderedHeadersFromRecord r0).map goTitle
    Except.ok
      { emptyMessage := none
        headers := headers
        rows := records.map fun r => headers.map fun h => GoValue.sprintf (recGet r (goToLower h)) }

/-! ### GitHub-login callback flow (cmd, file `github_login.go`)

The local HTTP server runs concurrently with the waiting command; what is
embedded is the per-request behaviour of the `/callback` handler (a pure
function from a request to the values it pushes onto the token channel)
and the sequential decision structure of `runGithubLogin` (which value is
received first, or the timeout).  `events` lists the callback requests the
server processes during one invocation, in arrival order. -/

/-- The JSON payload a callback POST carries (fields `access_token`,
`refresh_token`, `user_email`). -/
structure TokenPayload where
  accessToken : String
  refreshToken : String
  userEmail : String
deriving DecidableEq, Repr

/-- The anonymous result struct sent over `tokenChan`: tokens plus an
optional error. -/
structure TokenResult where
  accessToken : String
  refreshToken : String
  userEmail : String
  err : Option String
deriving DecidableEq, Repr

/-- One HTTP request reaching the `/callback` handler: a CORS preflight,
some other non-POST method, or a POST whose body decodes to a payload
(`none` embeds a JSON decode failure). -/
inductive CallbackReq where
  | options
  | other (method : String)
  | post (payload : Option TokenPayload)
deriving DecidableEq, Repr

/-- Embeds the `/callback` handler registered in Go `startCallbackServer`
(github_login.go): the channel sends it performs and the HTTP status it
answers.  A decode failure sends the parse error and answers 400; a good
payload sends the tokens and answers 200; OPTIONS and other methods send
nothing. -/
def handleCallback : CallbackReq → List TokenResult × Nat
  | CallbackReq.options => ([], 200)
  | CallbackReq.other _ => ([], 405)
  | CallbackReq.post none =>
    ([{ accessToken := "", refreshToken := "", userEmail := ""
        err := some "failed to parse token response" }], 400)
  | CallbackReq.post (some p) =>
    ([{ accessToken := p.accessToken, refreshToken := p.refreshToken
        userEmail := p.userEmail, err := none }], 200)

/-- All values the handler pushes onto `tokenChan` while processing the
given requests in order. -/
def callbackSends (reqs : List CallbackReq) : List TokenResult :=
  (reqs.map fun r => (handleCallback r).1).flatten

/-- One invocation's environment: whether the local listen succeeds,
what `GetGithubAuthURL` returns, and the callback requests processed
before the five-minute wait would fire (empty means nothing arrived). -/
structure GithubEnv where
  bindOk : Bool
  authURL : Except String String
  events : List CallbackReq

/-- Terminal outcome of Go `runGithubLogin`: the success message path, an
error return (bind error, decode error, auth-URL error, ...), or the
timeout error return. -/
inductive FlowOutcome where
  | success (email : String)
  | failure (msg : String)
  | timedOut
deriving DecidableEq, Repr

/-- What one invocation did: its outcome, whether `server.Shutdown` ran
before returning, and every value sent on `tokenChan`. -/
structure FlowResult where
  outcome : FlowOutcome
  shutdownCalled : Bool
  channelSends : List TokenResult
deriving DecidableEq, Repr

/-- The send Go `startCallbackServer` performs itself when `net.Listen`
fails (it then returns a nil server). -/
def bindSends (env : GithubEnv) : List TokenResult :=
  if env.bindOk then []
  else [{ accessToken := "", refreshToken := "", userEmail := ""
          err := some "failed to start callback server" }]

/-- Embeds Go `runGithubLogin` (github_login.go): start the callback
server, fetch the auth URL (an error there returns at once, without
shutting the server down), then block on `tokenChan` against the
five-minute timer.  The first channel value (bind error first, it is sent
before any callback can arrive) decides between the error return and the
success return — which updates and saves the config; no value at all is
the timeout return.  `server.Shutdown` runs on the received-value and
timeout paths whenever the server is non-nil, i.e. whenever the bind
succeeded. -/
def runGithubLogin (env : GithubEnv) (cfg : Config) (st : Store) :
    FlowResult × Config × Store :=
  match env.authURL with
  | Except.error e =>
    ({ outcome := FlowOutcome.failure ("failed to get GitHub auth URL: " ++ e)
       shutdownCalled := false
       channelSends := bindSends env }, cfg, st)
  | Except.ok _ =>
    let sends := bindSends env ++ callbackSends env.events
    match sends with
    | [] =>
      ({ outcome := FlowOutcome.timedOut
         shutdownCalled := env.bindOk
         channelSends := sends }, cfg, st)
    | r :: _ =>
      match r.err with
      | some e =>
        ({ outcome := FlowOutcome.failure ("GitHub login failed: " ++ e)
           shutdownCalled := env.bindOk
           channelSends := sends }, cfg, st)
      | none =>
        let cfg1 := cfg.UpdateTokens r.accessToken r.refreshToken r.userEmail
        ({ outcome := FlowOutcome.success r.userEmail
           shutdownCalled := env.bindOk
           channelSends := sends }, cfg1, cfg1.Save st)

/-! ### Concrete fixtures used by witness statements -/

/-- A concrete authenticated config. -/
def wcfg : Config :=
  { apiURL := "http://h", accessToken := "oldA", refreshToken := "oldR", userEmail := "e@x"
    defaultCloud := "", defaultRegion := "", defaultCompute := 0, defaultMemory := 0 }

/-- The same config with no stored refresh token. -/
def wcfgNoRefresh : Config :=
  { wcfg with refreshToken := "" }

/-- A concrete refresh-endpoint payload. -/
def wLogin : LoginResponse :=
  { accessToken := "newA", refreshToken := "newR", user := { email := "e@x" } }

/-- A network that answers 401 until the new bearer token is presented and
always refreshes successfully. -/
def wEnv : NetEnv :=
  { serve := fun rq => if rq.auth = some "Bearer newA" then some { status := 200 }
      else some { status := 401 }
    refresh := fun _ => some { status := 200, payload := some wLogin } }

/-- Client state over `wcfg` with no file on disk. -/
def wState : ClientState :=
  { baseURL := "http://h", config := wcfg, store := none }

/-- Client state over `wcfgNoRefresh`. -/
def wStateNoRefresh : ClientState :=
  { baseURL := "http://h", config := wcfgNoRefresh, store := none }

/-- Whether a callback request is a POST (the requests that send). -/
def isPost : CallbackReq → Bool
  | CallbackReq.post _ => true
  | _ => false


/-- A payload delivered by a successful callback POST. -/
def wPayload : TokenPayload :=
  { accessToken := "a", refreshToken := "r", userEmail := "e" }

/-- An invocation during which two POSTs reach the callback handler: one
with a malformed body, then one with a good payload. -/
def wGhEnvDouble : GithubEnv :=
  { bindOk := true, authURL := Except.ok "u"
    events := [CallbackReq.post none, CallbackReq.post (some wPayload)] }

/-- An invocation during which exactly one good POST arrives. -/
def wGhEnvSingle : GithubEnv :=
  { bindOk := true, authURL := Except.ok "u", events := [CallbackReq.post (some wPayload)] }

/-- A record with exactly the organization-membership key set. -/
def wRecMembership : Rec :=
  [("organization", GoValue.str "acme"), ("role", GoValue.str "admin"),
   ("is_default", GoValue.bool true)]

/-- The membership record with an extra key the curated order drops. -/
def wRecMembershipExtra : Rec :=
  wRecMembership ++ [("internal_id", GoValue.str "z")]

/-- Two representations of the same two-entry Go map. -/
def wRecAB : Rec :=
  [("a", GoValue.int 1), ("b", GoValue.int 2)]

/-- The other iteration order of the same map as `wRecAB`. -/
def wRecBA : Rec :=
  [("b", GoValue.int 2), ("a", GoValue.int 1)]


/-! ### Theorems -/

/-- Helper: a saved config loads back unchanged (omitempty drops a field
exactly when unmarshalling would restore the same zero value). -/
theorem load_save_eq (c : Config) (st : Store) : Load (c.Save st) = c := by
  cases c with
  | mk a b r e dc dr dcp dm =>
    simp only [Load, Config.Save, marshalConfig, unmarshalConfig, omitemptyStr, omitemptyInt]
    split_ifs <;> simp_all

/-- C8: saving any well-formed credentials value and loading returns a
value equal field-by-field to the one saved, and loading twice without an
intervening write yields identical results. -/
theorem config_save_load_roundtrip :
    (∀ (c : Config) (st : Store), Load (c.Save st) = c) ∧
    (∀ st : Store, Load st = Load st) :=
  ⟨fun c st => load_save_eq c st, fun _ => rfl⟩

/-- C2: a refresh cycle answered with a non-200 status clears all three
credential fields, persists the cleared state (loading the store
afterwards yields the cleared, unauthenticated config), and returns the
session-expired error directing the user to re-authenticate; afterwards
`IsAuthenticated` is false. -/
theorem refreshToken_non200_clears_and_persists
    (env : NetEnv) (s : ClientState) (ans : RefreshAnswer)
    (h : env.refresh s.config.refreshToken = some ans) (hs : ans.status ≠ 200) :
    (refreshToken env s).1.config.accessToken = "" ∧
    (refreshToken env s).1.config.refreshToken = "" ∧
    (refreshToken env s).1.config.userEmail = "" ∧
    (refreshToken env s).1.config.IsAuthenticated = false ∧
    (refreshToken env s).1.store = (s.config.ClearAuth).Save s.store ∧
    Load (refreshToken env s).1.store = s.config.ClearAuth ∧
    (Load (refreshToken env s).1.store).IsAuthenticated = false ∧
    (refreshToken env s).2 = Except.error ("session expired (HTTP " ++ toString ans.status ++
      "). Please run " ++ sq ++ "spacectl login" ++ sq ++ " to re-authenticate") := by
  simp [refreshToken, h, hs, load_save_eq, Config.ClearAuth, Config.IsAuthenticated]

/-- Witness for C2 at a concrete 403 refresh answer. -/
theorem refreshToken_non200_witness :
    (refreshToken
        { serve := fun _ => none, refresh := fun _ => some { status := 403, payload := none } }
        { baseURL := "http://h", config :=
            { apiURL := "http://h", accessToken := "tokA", refreshToken := "tokR"
              userEmail := "e@x", defaultCloud := "", defaultRegion := ""
              defaultCompute := 0, defaultMemory := 0 }, store := none }).1.config.IsAuthenticated
      = false :=
  (refreshToken_non200_clears_and_persists
    { serve := fun _ => none, refresh := fun _ => some { status := 403, payload := none } }
    { baseURL := "http://h", config :=
        { apiURL := "http://h", accessToken := "tokA", refreshToken := "tokR"
          userEmail := "e@x", defaultCloud := "", defaultRegion := ""
          defaultCompute := 0, defaultMemory := 0 }, store := none }
    { status := 403, payload := none } rfl (by decide)).2.2.2.1

/-- C1: when the first response is 401, a refresh token is stored, and the
refresh cycle succeeds with payload `lr`, exactly two requests are handed
to the HTTP client — the original and one retry that is the original
request with the Authorization header replaced by the new bearer token —
and the retry response (whatever its status, 401 included) is returned to
the caller as the non-error outcome. -/
theorem doRequest_401_refresh_retries_once
    (env : NetEnv) (s : ClientState) (method path : String) (body : Option String)
    (lr : LoginResponse) (r1 : HttpResponse)
    (hrt : s.config.refreshToken ≠ "")
    (h1 : env.serve (initialReq s method path body) = some { status := 401 })
    (href : env.refresh s.config.refreshToken = some { status := 200, payload := some lr })
    (h2 : env.serve { initialReq s method path body with
        auth := some ("Bearer " ++ lr.accessToken) } = some r1) :
    (doRequest env s method path body).2.1 =
      [initialReq s method path body,
       { initialReq s method path body with auth := some ("Bearer " ++ lr.accessToken) }] ∧
    (doRequest env s method path body).2.2 = Except.ok r1 := by
  simp [doRequest, refreshToken, h1, href, hrt, Config.UpdateTokens, h2]

/-- Witness for C1: concrete run in which the retried request carries the
new token and the call returns the retry response. -/
theorem doRequest_401_refresh_retries_once_witness :
    (doRequest wEnv wState "GET" "/p" none).2.1 =
      [initialReq wState "GET" "/p" none,
       { initialReq wState "GET" "/p" none with auth := some ("Bearer " ++ wLogin.accessToken) }] ∧
    (doRequest wEnv wState "GET" "/p" none).2.2 = Except.ok { status := 200 } :=
  doRequest_401_refresh_retries_once wEnv wState "GET" "/p" none wLogin { status := 200 }
    (by decide) (by decide) (by decide) (by decide)

/-- C9: when the response is 401 but no refresh token is stored, no refresh
cycle runs and no retry occurs — the single request is the only one sent,
the 401 response is returned as the non-error outcome, and the client
state (credentials and store) is returned unchanged. -/
theorem doRequest_401_without_refresh_token
    (env : NetEnv) (s : ClientState) (method path : String) (body : Option String)
    (r : HttpResponse)
    (hrt : s.config.refreshToken = "")
    (h1 : env.serve (initialReq s method path body) = some r)
    (_hs : r.status = 401) :
    doRequest env s method path body = (s, [initialReq s method path body], Except.ok r) := by
  simp [doRequest, h1, hrt]

/-- Witness for C9: concrete 401 with an empty refresh token. -/
theorem doRequest_401_without_refresh_token_witness :
    doRequest wEnv wStateNoRefresh "GET" "/p" none =
      (wStateNoRefresh, [initialReq wStateNoRefresh "GET" "/p" none],
       Except.ok { status := 401 }) :=
  doRequest_401_without_refresh_token wEnv wStateNoRefresh "GET" "/p" none { status := 401 }
    (by decide) (by decide) (by decide)

/-- C3 (counterexample): the byte-identity clause fails on the code.  A
document whose single string leaf holds the non-sensitive value a&b
parses, contains no sensitive key anywhere, yet re-serializes with the
ampersand HTML-escaped, so the output differs from the input in that
leaf; and a two-key document comes back with its keys reordered.  (Braces
in the byte strings are spelled \x7b and \x7d.) -/
theorem redact_not_byte_identical_counterexample :
    goParse floatCodec0 "\x7b\"name\":\"a&b\"\x7d" =
      some (Json.obj (JsonObj.cons "name" (Json.str "a&b") JsonObj.nil)) ∧
    redactSensitiveJSON floatCodec0 "\x7b\"name\":\"a&b\"\x7d" =
      "\x7b\"name\":\"a\\u0026b\"\x7d" ∧
    "\x7b\"name\":\"a\\u0026b\"\x7d" ≠ "\x7b\"name\":\"a&b\"\x7d" ∧
    redactSensitiveJSON floatCodec0 "\x7b\"b\":\"x\",\"a\":\"y\"\x7d" =
      "\x7b\"a\":\"y\",\"b\":\"x\"\x7d" :=
  ⟨rfl, rfl, by decide, rfl⟩

/-- C3 (amended): an input that does not decode as JSON is returned
unchanged; an input decoding to `v` yields exactly the re-marshalling of
`redactRecursive v`; and on every tree the redaction satisfies
`RedactSpec` — each key matching the sensitive set (case-insensitively,
at any depth, arrays included) carries exactly `"***REDACTED***"`, every
other entry keeps its decoded value, and nesting structure and array
order are preserved.  The output bytes are the re-serialization (keys in
ascending order, strings re-escaped with HTML escaping, numbers
reformatted from the parsed float64), not the input bytes. -/
theorem redactSensitiveJSON_amended :
    (∀ (codec : FloatCodec) (raw : String),
      goParse codec raw = none → redactSensitiveJSON codec raw = raw) ∧
    (∀ (codec : FloatCodec) (raw : String) (v : Json),
      goParse codec raw = some v →
      redactSensitiveJSON codec raw = serializeJson codec (redactRecursive v)) ∧
    (∀ v : Json, RedactSpec v (redactRecursive v)) := by
  refine ⟨fun codec raw h => ?_, fun codec raw v h => ?_, redactRecursive_meets_spec⟩
  · simp [redactSensitiveJSON, h]
  · simp [redactSensitiveJSON, h]

/-- Witness for C3 (amended): a non-JSON input returned unchanged, the
spec relation on a concrete tree, and the full byte-level pipeline
redacting a sensitive key while keeping the other field. -/
theorem redactSensitiveJSON_amended_witness :
    redactSensitiveJSON floatCodec0 "not json" = "not json" ∧
    RedactSpec
      (Json.obj (JsonObj.cons "token" (Json.str "secret")
        (JsonObj.cons "user" (Json.str "bob") JsonObj.nil)))
      (redactRecursive (Json.obj (JsonObj.cons "token" (Json.str "secret")
        (JsonObj.cons "user" (Json.str "bob") JsonObj.nil)))) ∧
    redactSensitiveJSON floatCodec0 "\x7b\"token\":\"secret\",\"user\":\"bob\"\x7d" =
      "\x7b\"token\":\"***REDACTED***\",\"user\":\"bob\"\x7d" :=
  ⟨redactSensitiveJSON_amended.1 floatCodec0 "not json" rfl,
   redactSensitiveJSON_amended.2.2 _, rfl⟩

/-- Helper: key presence in a record is membership in its key list. -/
theorem recHasKey_iff (r : Rec) (k : String) : recHasKey r k = true ↔ k ∈ recKeys r := by
  simp [recHasKey, recKeys, List.any_eq_true]

/-- Helper: `hasKeys` holds iff every listed key is a key of the record. -/
theorem hasKeys_iff (r : Rec) (ks : List String) :
    hasKeys r ks = true ↔ ∀ k ∈ ks, k ∈ recKeys r := by
  simp [hasKeys, List.all_eq_true, recHasKey_iff]

/-- C6: a record whose key set is exactly the curated organization
membership set gets the literal header order (title-cased by the table
path to Organization, Role, Is_default — Go `strings.Title` does not
treat an underscore as a word boundary); a record matching none of the
curated shapes gets its keys in ascending (alphabetical) order. -/
theorem ordered_headers_curated_and_fallback :
    (∀ r : Rec, (recKeys r).Perm ["organization", "role", "is_default"] →
      getOrderedHeadersFromRecord r = ["organization", "role", "is_default"] ∧
      (getOrderedHeadersFromRecord r).map goTitle = ["Organization", "Role", "Is_default"]) ∧
    (∀ r : Rec,
      hasKeys r ["organization", "role", "is_default"] = false →
      hasKeys r ["cloud_provider", "region", "zone"] = false →
      hasKeys r ["version", "is_default"] = false →
      hasKeys r ["name", "cloud_provider", "region", "kubernetes_version",
        "compute_quota", "memory_quota_gb", "status"] = false →
      (getOrderedHeadersFromRecord r).Sorted (· ≤ ·) ∧
      (getOrderedHeadersFromRecord r).Perm (recKeys r)) := by
  constructor
  · intro r hperm
    have hk : hasKeys r ["organization", "role", "is_default"] = true := by
      rw [hasKeys_iff]
      intro k hk
      rw [hperm.mem_iff]
      exact hk
    have hh : getOrderedHeadersFromRecord r = ["organization", "role", "is_default"] := by
      simp [getOrderedHeadersFromRecord, hk]
    exact ⟨hh, by rw [hh]; rfl⟩
  · intro r h1 h2 h3 h4
    have hh : getOrderedHeadersFromRecord r = (recKeys r).insertionSort (· ≤ ·) := by
      simp [getOrderedHeadersFromRecord, h1, h2, h3, h4]
    rw [hh]
    exact ⟨List.sorted_insertionSort _ _, List.perm_insertionSort _ _⟩

/-- Witness for C6: the curated order on a concrete exact-set record and
the alphabetical fallback on a concrete non-curated record. -/
theorem ordered_headers_curated_and_fallback_witness :
    (getOrderedHeadersFromRecord wRecMembership = ["organization", "role", "is_default"] ∧
      (getOrderedHeadersFromRecord wRecMembership).map goTitle =
        ["Organization", "Role", "Is_default"]) ∧
    ((getOrderedHeadersFromRecord wRecBA).Sorted (· ≤ ·) ∧
      (getOrderedHeadersFromRecord wRecBA).Perm (recKeys wRecBA)) :=
  ⟨ordered_headers_curated_and_fallback.1 wRecMembership (by decide),
   ordered_headers_curated_and_fallback.2 wRecBA (by decide) (by decide) (by decide) (by decide)⟩

/-- Helper: joining a single string is that string. -/
theorem string_join_singleton (s : String) : String.join [s] = s := by
  cases s
  rfl

/-- Helper: title-casing of `organization`. -/
theorem goTitle_organization_eq : goTitle "organization" = "Organization" := rfl

/-- Helper: title-casing of `role`. -/
theorem goTitle_role_eq : goTitle "role" = "Role" := rfl

/-- Helper: title-casing of `is_default` (the underscore is not a word
boundary for Go `strings.Title`). -/
theorem goTitle_is_default_eq : goTitle "is_default" = "Is_default" := rfl

/-- Helper: lower-casing of the three table headers. -/
theorem goToLower_membership_eq :
    goToLower "Organization" = "organization" ∧ goToLower "Role" = "role" ∧
      goToLower "Is_default" = "is_default" :=
  ⟨rfl, rfl, rfl⟩

/-- C10: curated dispatch is keyed on key presence only — any record
containing the three membership keys, extra keys included, renders with
exactly those three columns in both CSV and table modes, every extra key
silently dropped. -/
theorem curated_headers_drop_extra_keys (r : Rec)
    (h : hasKeys r ["organization", "role", "is_default"] = true) :
    getOrderedHeadersFromRecord r = ["organization", "role", "is_default"] ∧
    formatCSV false [r] = Except.ok (csvWriteRow ["organization", "role", "is_default"] ++
      csvWriteRow [GoValue.sprintf (recGet r "organization"), GoValue.sprintf (recGet r "role"),
        GoValue.sprintf (recGet r "is_default")]) ∧
    formatTable [r] = Except.ok
      { emptyMessage := none
        headers := ["Organization", "Role", "Is_default"]
        rows := [[GoValue.sprintf (recGet r "organization"), GoValue.sprintf (recGet r "role"),
          GoValue.sprintf (recGet r "is_default")]] } := by
  have hh : getOrderedHeadersFromRecord r = ["organization", "role", "is_default"] := by
    simp [getOrderedHeadersFromRecord, h]
  refine ⟨hh, ?_, ?_⟩
  · simp [formatCSV, hh, string_join_singleton]
  · simp [formatTable, hh, goTitle_organization_eq, goTitle_role_eq, goTitle_is_default_eq,
      goToLower_membership_eq.1, goToLower_membership_eq.2.1, goToLower_membership_eq.2.2]

/-- Witness for C10: a membership record with an extra `internal_id` key
still renders only the three curated columns. -/
theorem curated_headers_drop_extra_keys_witness :
    getOrderedHeadersFromRecord wRecMembershipExtra = ["organization", "role", "is_default"] ∧
    formatCSV false [wRecMembershipExtra] =
      Except.ok (csvWriteRow ["organization", "role", "is_default"] ++
        csvWriteRow [GoValue.sprintf (recGet wRecMembershipExtra "organization"),
          GoValue.sprintf (recGet wRecMembershipExtra "role"),
          GoValue.sprintf (recGet wRecMembershipExtra "is_default")]) ∧
    formatTable [wRecMembershipExtra] = Except.ok
      { emptyMessage := none
        headers := ["Organization", "Role", "Is_default"]
        rows := [[GoValue.sprintf (recGet wRecMembershipExtra "organization"),
          GoValue.sprintf (recGet wRecMembershipExtra "role"),
          GoValue.sprintf (recGet wRecMembershipExtra "is_default")]] } :=
  curated_headers_drop_extra_keys wRecMembershipExtra (by decide)

/-- C7: an empty record list renders in table mode as exactly the line
`No data found` plus newline and succeeds, and in CSV mode (headers on or
suppressed) writes nothing at all and succeeds. -/
theorem format_empty_list_outputs :
    formatTable ([] : List Rec) =
      Except.ok { emptyMessage := some "No data found\n", headers := [], rows := [] } ∧
    formatCSV false ([] : List Rec) = Except.ok "" ∧
    formatCSV true ([] : List Rec) = Except.ok "" :=
  ⟨rfl, rfl, rfl⟩

/-- C4 (failing part): with headers suppressed, the CSV row for a record is
emitted in the map iteration order, which is not determined by the map's
contents: the two representations `wRecAB` and `wRecBA` of the same
two-entry map render differently, and in a single pass over a list
containing both, the two rows come out with different column orders —
while with headers on, the two iteration orders of one record render
identically (shown on a curated shape).  Since Go randomizes map
iteration order, the suppressed-headers CSV output is not deterministic
and rows of one pass need not share a column order. -/
theorem formatCSV_noHeaders_not_order_stable :
    wRecAB.Perm wRecBA ∧
    formatCSV true [wRecAB] = Except.ok "1,2\n" ∧
    formatCSV true [wRecBA] = Except.ok "2,1\n" ∧
    formatCSV true [wRecAB, wRecBA] = Except.ok "1,2\n2,1\n" ∧
    formatCSV false [[("version", GoValue.str "1"), ("is_default", GoValue.bool true)]] =
      Except.ok "version,is_default\n1,true\n" ∧
    formatCSV false [[("is_default", GoValue.bool true), ("version", GoValue.str "1")]] =
      Except.ok "version,is_default\n1,true\n" :=
  ⟨by decide, rfl, rfl, rfl, rfl, rfl⟩

/-- Helper: the handler pushes exactly one channel value per POST it
processes (good or malformed alike) — there is no already-resolved guard. -/
theorem callbackSends_length (reqs : List CallbackReq) :
    (callbackSends reqs).length = reqs.countP (fun e => isPost e) := by
  induction reqs with
  | nil => rfl
  | cons hd tl ih =>
    cases hd with
    | options => simpa [callbackSends, handleCallback, isPost, List.countP_cons] using ih
    | other m => simpa [callbackSends, handleCallback, isPost, List.countP_cons] using ih
    | post p =>
      cases p <;> simpa [callbackSends, handleCallback, isPost, List.countP_cons] using ih

/-- Helper: under a successful auth-URL fetch, the values sent on the
channel during one invocation are the bind-failure send followed by one
send per processed POST. -/
theorem runGithubLogin_channelSends (env : GithubEnv) (cfg : Config) (st : Store) (u : String)
    (hurl : env.authURL = Except.ok u) :
    (runGithubLogin env cfg st).1.channelSends = bindSends env ++ callbackSends env.events := by
  simp only [runGithubLogin, hurl]
  rcases hs : bindSends env ++ callbackSends env.events with _ | ⟨r, rest⟩
  · simp [hs]
  · cases he : r.err <;> simp [he, hs]

/-- C5 counterexample: one invocation in which the callback handler
processes a malformed POST and then a good POST sends two values on the
single-slot channel — the decode error in the first POST is followed by a
second send from the later POST, contradicting the at-most-one-value
claim. -/
theorem callback_channel_double_send_counterexample :
    (callbackSends wGhEnvDouble.events).length = 2 ∧
    (runGithubLogin wGhEnvDouble DefaultConfig none).1.channelSends.length = 2 ∧
    ¬((runGithubLogin wGhEnvDouble DefaultConfig none).1.channelSends.length ≤ 1) :=
  ⟨rfl, rfl, by decide⟩

/-- Helper: under a successful auth-URL fetch, when some value was sent
the flow returns the outcome decided by the first value: the wrapped
error when it carries one, otherwise the success outcome for its email. -/
theorem runGithubLogin_outcome_of_first (env : GithubEnv) (cfg : Config) (st : Store)
    (u : String) (r : TokenResult) (rest : List TokenResult)
    (hurl : env.authURL = Except.ok u)
    (hr : bindSends env ++ callbackSends env.events = r :: rest) :
    (runGithubLogin env cfg st).1.outcome =
      match r.err with
      | some e => FlowOutcome.failure ("GitHub login failed: " ++ e)
      | none => FlowOutcome.success r.userEmail := by
  simp only [runGithubLogin, hurl, hr]
  cases he : r.err <;> simp [he]

/-- C5 (amended): under a successful auth-URL fetch, the channel receives
exactly one value per processed POST, plus exactly one value when the
bind fails (so when the bind succeeded and at most one POST was
processed, the channel receives at most one value); whenever the
listener was bound, it is shut down before the flow returns
(received-value and timeout paths alike); the timeout outcome occurs
exactly when no value was sent; and otherwise the first value sent
decides the terminal outcome — its error as the failure return, its
payload as the success return. -/
theorem runGithubLogin_send_accounting (env : GithubEnv) (cfg : Config) (st : Store) (u : String)
    (hurl : env.authURL = Except.ok u) :
    (runGithubLogin env cfg st).1.channelSends.length =
      (if env.bindOk then 0 else 1) + env.events.countP (fun e => isPost e) ∧
    (env.bindOk → (runGithubLogin env cfg st).1.shutdownCalled = true) ∧
    (env.bindOk → env.events.countP (fun e => isPost e) ≤ 1 →
      (runGithubLogin env cfg st).1.channelSends.length ≤ 1) ∧
    ((runGithubLogin env cfg st).1.channelSends = [] ↔
      (runGithubLogin env cfg st).1.outcome = FlowOutcome.timedOut) ∧
    (∀ (r : TokenResult) (rest : List TokenResult),
      (runGithubLogin env cfg st).1.channelSends = r :: rest →
      (runGithubLogin env cfg st).1.outcome =
        match r.err with
        | some e => FlowOutcome.failure ("GitHub login failed: " ++ e)
        | none => FlowOutcome.success r.userEmail) := by
  have hcs := runGithubLogin_channelSends env cfg st u hurl
  have hbl : (bindSends env).length = (if env.bindOk then 0 else 1) := by
    cases hb : env.bindOk <;> simp [bindSends, hb]
  have hlen : (runGithubLogin env cfg st).1.channelSends.length =
      (if env.bindOk then 0 else 1) + env.events.countP (fun e => isPost e) := by
    rw [hcs, List.length_append, hbl, callbackSends_length]
  refine ⟨hlen, ?_, ?_, ?_, ?_⟩
  · intro hb
    simp only [runGithubLogin, hurl]
    rcases hs : bindSends env ++ callbackSends env.events with _ | ⟨r, rest⟩
    · simp [hb]
    · cases he : r.err <;> simp [he, hb]
  · intro hb hc
    rw [hlen, hb]
    simpa using hc
  · simp only [runGithubLogin, hurl]
    rcases hs : bindSends env ++ callbackSends env.events with _ | ⟨r, rest⟩
    · simp
    · cases he : r.err <;> simp [he]
  · intro r rest hr
    rw [hcs] at hr
    exact runGithubLogin_outcome_of_first env cfg st u r rest hurl hr

/-- Witness for C5 (amended) at a single-POST invocation: one channel
value, shutdown performed, success outcome from the one value received. -/
theorem runGithubLogin_send_accounting_witness :
    (runGithubLogin wGhEnvSingle DefaultConfig none).1.channelSends.length =
      (if wGhEnvSingle.bindOk then 0 else 1) +
        wGhEnvSingle.events.countP (fun e => isPost e) ∧
    (wGhEnvSingle.bindOk →
      (runGithubLogin wGhEnvSingle DefaultConfig none).1.shutdownCalled = true) ∧
    (wGhEnvSingle.bindOk → wGhEnvSingle.events.countP (fun e => isPost e) ≤ 1 →
      (runGithubLogin wGhEnvSingle DefaultConfig none).1.channelSends.length ≤ 1) ∧
    ((runGithubLogin wGhEnvSingle DefaultConfig none).1.channelSends = [] ↔
      (runGithubLogin wGhEnvSingle DefaultConfig none).1.outcome = FlowOutcome.timedOut) ∧
    ((runGithubLogin wGhEnvSingle DefaultConfig none).1.channelSends =
        [{ accessToken := "a", refreshToken := "r", userEmail := "e", err := none }] →
      (runGithubLogin wGhEnvSingle DefaultConfig none).1.outcome = FlowOutcome.success "e") :=
  have h := runGithubLogin_send_accounting wGhEnvSingle DefaultConfig none "u" rfl
  ⟨h.1, h.2.1, h.2.2.1, h.2.2.2.1,
   fun hr => h.2.2.2.2 { accessToken := "a", refreshToken := "r", userEmail := "e", err := none }
     [] hr⟩
